/-
Verification of the conversation-memory, tool-call parsing, orchestration
loop, CAPTCHA and tool-registry components of the lora_mcp repository.

The Lean definitions below are shallow embeddings of the Python source:
  * src/py/client.py        (LLMClient, ConversationManager, ChatSession, Server)
  * src/2.0/mcp_client/new/web_interface.py (handle_task_execution)
  * src/2.0/mcp_server/server.py  (detect_and_solve_captcha,
                                   solve_tiktok_puzzle_captcha, write_file)
  * src/2.0/mcp_server/main.py    (the /tools/execute registry route)
  * src/py/server.py              (write_file)

External effects (the LLM completion service, the browser page, the random
number generator, tool implementations) are passed in as explicit oracle
arguments, so every definition is a pure, executable Lean function.
-/
import Mathlib

set_option maxHeartbeats 1000000
set_option maxRecDepth 4096

/-! ## Conversation data model (src/py/client.py)

The `content` of a message is either a plain string or a list of content
blocks; a content block is a Python dict, modelled as an association
list from keys to block values (a string, or a nested string-to-string
dict, which is all the client code ever builds). -/

/-- Message roles used by the client (`system`, `user`, `assistant`). -/
inductive Role where
  | system
  | user
  | assistant
deriving DecidableEq, Repr

/-- Value stored under one key of a content block: a plain string or a
nested one-level dict (e.g. the payload of a `json` or `image` block). -/
inductive BVal where
  | s (v : String)
  | kv (fields : List (String × String))
deriving DecidableEq, Repr

/-- One content block: a Python dict, as an association list. -/
abbrev Block := List (String × BVal)

/-- Python `key in content_item`. -/
def blockHasKey (b : Block) (k : String) : Bool :=
  b.any (fun kv => kv.1 == k)

/-- Message content: a plain string or structured blocks. -/
inductive Content where
  | ofString (s : String)
  | ofBlocks (bs : List Block)
deriving DecidableEq, Repr

/-- A conversation message (`{"role": ..., "content": ...}`). -/
structure Msg where
  role : Role
  content : Content
deriving DecidableEq, Repr

/-- Model of `LLMClient.estimate_token_count`: `len(text) // 4`. -/
def estimate_token_count (text : String) : Nat :=
  text.length / 4

/-- Constant `SUMMARIZATION_TOKEN_THRESHOLD = 50000` (src/py/client.py). -/
def SUMMARIZATION_TOKEN_THRESHOLD : Nat := 50000

/-- Constant `KEEP_LAST_TURNS = 1` (src/py/client.py). -/
def KEEP_LAST_TURNS : Nat := 1

/-- Model of `ConversationManager.should_summarize`: running estimate strictly
above the threshold. -/
def should_summarize (totalTokensUsed : Nat) : Bool :=
  totalTokensUsed > SUMMARIZATION_TOKEN_THRESHOLD

/-- Model of `ConversationManager.add_message`: append, no mutation of prior
entries. -/
def add_message (msgs : List Msg) (role : Role) (content : Content) : List Msg :=
  msgs ++ [⟨role, content⟩]

/-- Python tail slice `xs[-n:]` (note `xs[-0:]` is the whole list). -/
def pyTail (xs : List Msg) (n : Nat) : List Msg :=
  if n = 0 then xs else xs.drop (xs.length - n)

/-- Token recomputation loop at the end of
`ConversationManager.summarize_conversation`: sum the `len // 4`
heuristic over the messages whose content is a plain string. -/
def tokensOfMessages (msgs : List Msg) : Nat :=
  msgs.foldl
    (fun acc m =>
      match m.content with
      | .ofString s => acc + estimate_token_count s
      | .ofBlocks _ => acc) 0

/-- Model of `ConversationManager.summarize_conversation`, with the LLM
summarization call abstracted as `summary` (`none` models the call
raising, which the `except` clause turns into a no-op).  Takes and
returns the message list together with `total_tokens_used`.
`k` is the `KEEP_LAST_TURNS` constant. -/
def summarize_conversation (k : Nat) (msgs : List Msg) (tokens : Nat)
    (summary : Option String) : List Msg × Nat :=
  if msgs.length ≤ k * 2 + 1 then
    (msgs, tokens)
  else
    match summary with
    | none => (msgs, tokens)
    | some s =>
      let systemMessage : Option Msg :=
        match msgs.head? with
        | some m => if m.role = .system then some m else none
        | none => none
      let lastTurns := pyTail msgs (k * 2)
      let summaryMsg : Msg :=
        ⟨.assistant, .ofString ("[CONVERSATION SUMMARY: " ++ s ++ "]")⟩
      let newMessages :=
        (match systemMessage with
         | some m => [m]
         | none => []) ++ summaryMsg :: lastTurns
      (newMessages, tokensOfMessages newMessages)

/-! ## Media pruning (`ConversationManager.remove_media_except_last_turn`) -/

/-- Keep a block iff it has a `text` key, or has neither an `image` nor
a `json` key (the `else` branch of the source keeps unrecognised
blocks). -/
def keepBlock (b : Block) : Bool :=
  blockHasKey b "text" || (!blockHasKey b "image" && !blockHasKey b "json")

/-- Placeholder inserted when a message would become empty. -/
def placeholderBlock : Block :=
  [("text", .s "An image or document was removed for brevity.")]

/-- Per-message scrub of an early message: string content untouched,
structured content filtered, placeholder if nothing remains. -/
def scrubMsg (m : Msg) : Msg :=
  match m.content with
  | .ofString _ => m
  | .ofBlocks bs =>
    let newContent := bs.filter keepBlock
    if newContent.isEmpty then ⟨m.role, .ofBlocks [placeholderBlock]⟩
    else ⟨m.role, .ofBlocks newContent⟩

/-- Index of the most recent message with role `user` (the source scans
from the end; only roles are consulted). -/
def lastUserIndexR : List Role → Option Nat
  | [] => none
  | r :: rest =>
    match lastUserIndexR rest with
    | some j => some (j + 1)
    | none => if r = .user then some 0 else none

/-- Model of `ConversationManager.remove_media_except_last_turn`: scrub every
message strictly before the most recent user turn. -/
def remove_media_except_last_turn (msgs : List Msg) : List Msg :=
  if msgs.length < 2 then msgs
  else
    match lastUserIndexR (msgs.map Msg.role) with
    | none => msgs
    | some j => (msgs.take j).map scrubMsg ++ msgs.drop j

/-! ## JSON values and a model of Python `json.loads`

`LLMClient.extract_tool_call_json` feeds a candidate string to
`json.loads`; numbers are kept as their lexemes (no float semantics is
needed by any claim). -/

/-- JSON values as produced by `json.loads`. -/
inductive Json where
  | null
  | bool (b : Bool)
  | num (lit : String)
  | str (s : String)
  | arr (items : List Json)
  | obj (fields : List (String × Json))
deriving Repr

/-- Python dict membership `k in loaded_json` for a parsed JSON value. -/
def hasKeyJ (j : Json) (k : String) : Bool :=
  match j with
  | .obj fields => fields.any (fun kv => kv.1 == k)
  | _ => false

/-- JSON whitespace (space, tab, line feed, carriage return). -/
def jsonWs (c : Char) : Bool :=
  c = ' ' || c = '\t' || c = '\n' || c = '\r'

/-- Drop leading JSON whitespace. -/
def skipJsonWs : List Char → List Char
  | [] => []
  | c :: cs => if jsonWs c then skipJsonWs cs else c :: cs

/-- Literal prefix test on character lists. -/
def matchLit : List Char → List Char → Bool
  | [], _ => true
  | _ :: _, [] => false
  | p :: ps, c :: cs => p == c && matchLit ps cs

/-- Longest leading run of decimal digits. -/
def takeDigits : List Char → List Char × List Char
  | [] => ([], [])
  | c :: cs =>
    if c.isDigit then
      let (d, r) := takeDigits cs
      (c :: d, r)
    else ([], c :: cs)

/-- JSON number lexer: `-?(0|[1-9][0-9]*)(.[0-9]+)?([eE][+-]?[0-9]+)?`,
returning the lexeme. -/
def parseNumber (cs : List Char) : Option (List Char × List Char) :=
  let (negPart, cs1) : List Char × List Char :=
    match cs with
    | '-' :: t => (['-'], t)
    | _ => ([], cs)
  match cs1 with
  | [] => none
  | c :: t =>
    let intPart? : Option (List Char × List Char) :=
      if c = '0' then some (['0'], t)
      else if c.isDigit then
        let (d, r) := takeDigits t
        some (c :: d, r)
      else none
    match intPart? with
    | none => none
    | some (intPart, rest1) =>
      let fracStep : Option (List Char × List Char) :=
        match rest1 with
        | '.' :: t2 =>
          match takeDigits t2 with
          | ([], _) => none
          | (d, r) => some ('.' :: d, r)
        | _ => some ([], rest1)
      match fracStep with
      | none => none
      | some (fracPart, rest2) =>
        let expStep : Option (List Char × List Char) :=
          match rest2 with
          | e :: t3 =>
            if e = 'e' || e = 'E' then
              let (signPart, t4) : List Char × List Char :=
                match t3 with
                | '+' :: t5 => (['+'], t5)
                | '-' :: t5 => (['-'], t5)
                | _ => ([], t3)
              match takeDigits t4 with
              | ([], _) => none
              | (d, r) => some (e :: (signPart ++ d), r)
            else some ([], rest2)
          | [] => some ([], rest2)
        match expStep with
        | none => none
        | some (expPart, rest3) =>
          some (negPart ++ intPart ++ fracPart ++ expPart, rest3)

/-- Hexadecimal digit value (code-point arithmetic). -/
def hexVal (c : Char) : Option Nat :=
  let n := c.toNat
  if 48 ≤ n && n ≤ 57 then some (n - 48)
  else if 97 ≤ n && n ≤ 102 then some (n - 87)
  else if 65 ≤ n && n ≤ 70 then some (n - 55)
  else none

/-- Body of a JSON string, after the opening quote; handles the escape
sequences accepted by `json.loads` and rejects raw control characters. -/
def parseStringBody : Nat → List Char → List Char → Option (String × List Char)
  | 0, _, _ => none
  | _ + 1, [], _ => none
  | fuel + 1, c :: cs, acc =>
    if c = '"' then some (⟨acc.reverse⟩, cs)
    else if c = '\\' then
      match cs with
      | [] => none
      | e :: cs2 =>
        if e = '"' then parseStringBody fuel cs2 ('"' :: acc)
        else if e = '\\' then parseStringBody fuel cs2 ('\\' :: acc)
        else if e = '/' then parseStringBody fuel cs2 ('/' :: acc)
        else if e = 'b' then parseStringBody fuel cs2 ('\x08' :: acc)
        else if e = 'f' then parseStringBody fuel cs2 ('\x0c' :: acc)
        else if e = 'n' then parseStringBody fuel cs2 ('\n' :: acc)
        else if e = 'r' then parseStringBody fuel cs2 ('\r' :: acc)
        else if e = 't' then parseStringBody fuel cs2 ('\t' :: acc)
        else if e = 'u' then
          match cs2 with
          | h1 :: h2 :: h3 :: h4 :: cs3 =>
            match hexVal h1, hexVal h2, hexVal h3, hexVal h4 with
            | some a, some b, some c3, some d =>
              parseStringBody fuel cs3
                (Char.ofNat (((a * 16 + b) * 16 + c3) * 16 + d) :: acc)
            | _, _, _, _ => none
          | _ => none
        else none
    else if c.toNat < 32 then none
    else parseStringBody fuel cs (c :: acc)

mutual

/-- Recursive-descent JSON value parser (fuel-indexed). -/
def parseValue : Nat → List Char → Option (Json × List Char)
  | 0, _ => none
  | fuel + 1, cs0 =>
    let cs := skipJsonWs cs0
    match cs with
    | [] => none
    | c :: rest =>
      if c = '{' then
        match skipJsonWs rest with
        | '}' :: r2 => some (.obj [], r2)
        | r2 => parseMembers fuel r2 []
      else if c = '[' then
        match skipJsonWs rest with
        | ']' :: r2 => some (.arr [], r2)
        | r2 => parseItems fuel r2 []
      else if c = '"' then
        match parseStringBody (rest.length + 1) rest [] with
        | some (s, r2) => some (.str s, r2)
        | none => none
      else if matchLit "true".data cs then some (.bool true, cs.drop 4)
      else if matchLit "false".data cs then some (.bool false, cs.drop 5)
      else if matchLit "null".data cs then some (.null, cs.drop 4)
      else
        match parseNumber cs with
        | some (lit, r2) => some (.num ⟨lit⟩, r2)
        | none => none

/-- Members of a JSON object after the opening brace. -/
def parseMembers : Nat → List Char → List (String × Json) →
    Option (Json × List Char)
  | 0, _, _ => none
  | fuel + 1, cs, acc =>
    match skipJsonWs cs with
    | '"' :: rest =>
      match parseStringBody (rest.length + 1) rest [] with
      | some (key, r2) =>
        match skipJsonWs r2 with
        | ':' :: r3 =>
          match parseValue fuel r3 with
          | some (v, r4) =>
            match skipJsonWs r4 with
            | ',' :: r5 => parseMembers fuel r5 (acc ++ [(key, v)])
            | '}' :: r5 => some (.obj (acc ++ [(key, v)]), r5)
            | _ => none
          | none => none
        | _ => none
      | none => none
    | _ => none

/-- Items of a JSON array after the opening bracket. -/
def parseItems : Nat → List Char → List Json → Option (Json × List Char)
  | 0, _, _ => none
  | fuel + 1, cs, acc =>
    match parseValue fuel cs with
    | some (v, r) =>
      match skipJsonWs r with
      | ',' :: r2 => parseItems fuel r2 (acc ++ [v])
      | ']' :: r2 => some (.arr (acc ++ [v]), r2)
      | _ => none
    | none => none

end

/-- Model of Python `json.loads`: parse one value, allow surrounding
whitespace, require the whole input to be consumed. -/
def json_loads (s : String) : Option Json :=
  match parseValue (s.length + 1) s.data with
  | some (v, rest) => if (skipJsonWs rest).isEmpty then some v else none
  | none => none

/-! ## The tool-call extraction regex of `LLMClient.extract_tool_call_json`

The source searches for a fenced block.
The search is leftmost; the lazy group takes the earliest closing brace
that is followed by optional whitespace and a closing fence. -/

/-- Python regex `\s` / `str.strip` whitespace (ASCII). -/
def pyWs (c : Char) : Bool :=
  c = ' ' || c = '\t' || c = '\n' || c = '\r' || c = '\x0c' || c = '\x0b'

/-- Drop leading Python whitespace. -/
def skipPyWs : List Char → List Char
  | [] => []
  | c :: cs => if pyWs c then skipPyWs cs else c :: cs

/-- Python `str.strip()`. -/
def pyStrip (cs : List Char) : List Char :=
  (skipPyWs (skipPyWs cs).reverse).reverse

/-- Case-insensitive literal prefix test (regex `re.IGNORECASE`). -/
def matchLitCI : List Char → List Char → Bool
  | [], _ => true
  | _ :: _, [] => false
  | p :: ps, c :: cs => p.toLower == c.toLower && matchLitCI ps cs

/-- Does optional whitespace followed by a closing fence follow here? -/
def fenceFollows (cs : List Char) : Bool :=
  matchLit "```".data (skipPyWs cs)

/-- Lazy scan for the earliest closing brace whose tail admits the
closing fence; returns the characters strictly between the braces. -/
def lazyClose : List Char → List Char → Option (List Char)
  | _, [] => none
  | acc, c :: rest =>
    if c = '}' && fenceFollows rest then some acc.reverse
    else lazyClose (c :: acc) rest

/-- Try to match the whole fenced pattern at this position, returning
the capture group (brace to brace). -/
def matchFenceAt (cs : List Char) : Option (List Char) :=
  if matchLitCI "```json".data cs then
    match skipPyWs (cs.drop 7) with
    | '{' :: afterBrace =>
      match lazyClose [] afterBrace with
      | some inner => some ('{' :: (inner ++ ['}']))
      | none => none
    | _ => none
  else none

/-- Leftmost regex search for the fenced tool-call block. -/
def searchFencedJson : List Char → Option (List Char)
  | [] => none
  | c :: rest =>
    match matchFenceAt (c :: rest) with
    | some cap => some cap
    | none => searchFencedJson rest

/-- The `json_string` local of `extract_tool_call_json`: the stripped
fenced capture, or the whole stripped text when it is brace-delimited. -/
def toolCallCandidate (text : String) : Option (List Char) :=
  match searchFencedJson text.data with
  | some cap => some (pyStrip cap)
  | none =>
    let ts := pyStrip text.data
    match ts.head?, ts.getLast? with
    | some '{', some '}' => some ts
    | _, _ => none

/-- Model of `LLMClient.extract_tool_call_json`: take the candidate string,
`json.loads` it, and return the dict only when it is a dict with both a
`tool` and an `arguments` key. -/
def extract_tool_call_json (text : String) : Option Json :=
  match toolCallCandidate text with
  | none => none
  | some js =>
    if js.isEmpty then none
    else
      match json_loads ⟨js⟩ with
      | some (.obj fields) =>
        if fields.any (fun kv => kv.1 == "tool") &&
            fields.any (fun kv => kv.1 == "arguments") then
          some (.obj fields)
        else none
      | _ => none

/-! ## Orchestrator loops

`handle_task_execution` (src/2.0/mcp_client/new/web_interface.py) and
`ChatSession.execute_task` (src/py/client.py) drive the same
tool-execution loop; the web interface adds a `max_steps = 20` cap, the
CLI client has no cap.  The LLM completion service is abstracted as
`resp : Nat → String` giving the raw text of the k-th LLM call of the
task (call 0 answers the task prompt, call k answers the k-th
continuation prompt). -/

/-- Constant `max_steps = 20` in `handle_task_execution`. -/
def MAX_STEPS : Nat := 20

/-- Outcome of one run of `handle_task_execution`:
number of executed tool steps, number of LLM calls made, whether the
"reached maximum steps limit. Please review the results." message was
sent, and whether the loop stopped on a non-tool response. -/
structure TaskOutcome where
  steps : Nat
  llmCalls : Nat
  maxStepsNote : Bool
  completedEarly : Bool
deriving DecidableEq, Repr

/-- The `while stop_reason == "tool_use" and step_count < max_steps`
loop of `handle_task_execution`, entered after an initial tool-call
response.  `fuel` is `maxSteps - stepCount`, so the `fuel = 0` case is
the loop condition failing with `step_count = max_steps`; after the
loop, `if step_count >= max_steps` decides the review note. -/
def handleTaskLoop (resp : Nat → String) (maxSteps : Nat) :
    Nat → Nat → TaskOutcome
  | 0, sc => ⟨sc, sc + 1, decide (maxSteps ≤ sc), false⟩
  | fuel + 1, sc =>
    let sc' := sc + 1
    match extract_tool_call_json (resp sc') with
    | some _ => handleTaskLoop resp maxSteps fuel sc'
    | none => ⟨sc', sc' + 1, decide (maxSteps ≤ sc'), true⟩

/-- Model of `handle_task_execution`: one initial LLM call, then the capped tool
loop when the first response parses as a tool call. -/
def handle_task_execution (resp : Nat → String) (maxSteps : Nat) : TaskOutcome :=
  match extract_tool_call_json (resp 0) with
  | none => ⟨0, 1, false, true⟩
  | some _ => handleTaskLoop resp maxSteps maxSteps 0

/-- The uncapped `while stop_reason == "tool_use"` loop of
`ChatSession.execute_task` (src/py/client.py), observed for `fuel`
iterations: `some (steps, llmCalls)` when the loop stopped on a
non-tool response within the observation budget, `none` when it is
still executing tool calls after `fuel` tool-execution steps. -/
def executeTaskLoop (resp : Nat → String) : Nat → Nat → Option (Nat × Nat)
  | 0, _ => none
  | fuel + 1, sc =>
    let sc' := sc + 1
    match extract_tool_call_json (resp sc') with
    | some _ => executeTaskLoop resp fuel sc'
    | none => some (sc', sc' + 1)

/-- Model of `ChatSession.execute_task` termination behaviour, observed for
`fuel` loop iterations. -/
def execute_task (resp : Nat → String) (fuel : Nat) : Option (Nat × Nat) :=
  match extract_tool_call_json (resp 0) with
  | none => some (0, 1)
  | some _ => executeTaskLoop resp fuel 0

/-! ## CAPTCHA detection (src/2.0/mcp_server/server.py,
`detect_and_solve_captcha`)

A page is a list of DOM elements; the CSS selector probes used by the
source are hand-translated below (`tag[attr*="sub"]` is an attribute
substring test, `.cls` is a class-word test). -/

/-- A DOM element: tag name and attributes. -/
structure Element where
  tag : String
  attrs : List (String × String)
deriving DecidableEq, Repr

/-- Attribute lookup. -/
def attrOf (e : Element) (k : String) : Option String :=
  (e.attrs.find? (fun kv => kv.1 == k)).map (·.2)

/-- Does `needle` occur as a prefix of some suffix of `hay`? -/
def substrAux (needle : List Char) : List Char → Bool
  | [] => matchLit needle []
  | c :: cs => matchLit needle (c :: cs) || substrAux needle cs

/-- Substring test (CSS `*=`). -/
def substrOf (needle hay : String) : Bool :=
  substrAux needle.data hay.data

/-- CSS `tag[attr*="sub"]`. -/
def attrContains (e : Element) (tag attrName sub : String) : Bool :=
  e.tag == tag &&
    match attrOf e attrName with
    | some v => substrOf sub v
    | none => false

/-- Split a class attribute on spaces into words. -/
def classWords : List Char → List Char → List (List Char)
  | [], acc => if acc.isEmpty then [] else [acc.reverse]
  | c :: cs, acc =>
    if c = ' ' then
      if acc.isEmpty then classWords cs []
      else acc.reverse :: classWords cs []
    else classWords cs (c :: acc)

/-- CSS class selector `.cls`. -/
def hasClassWord (e : Element) (cls : String) : Bool :=
  match attrOf e "class" with
  | some v => (classWords v.data []).any (fun w => w == cls.data)
  | none => false

/-- A page DOM. -/
abbrev PageDom := List Element

/-- Selector `iframe[src*="recaptcha/api2/anchor"]`. -/
def recaptchaV2Probe (page : PageDom) : Bool :=
  page.any (fun e => attrContains e "iframe" "src" "recaptcha/api2/anchor")

/-- Selector `iframe[src*="hcaptcha.com"]`. -/
def hcaptchaProbe (page : PageDom) : Bool :=
  page.any (fun e => attrContains e "iframe" "src" "hcaptcha.com")

/-- Selector `.captcha-verify-slide-bar, div[class*="captcha"], iframe[title*="captcha"]`. -/
def sliderProbe (page : PageDom) : Bool :=
  page.any (fun e =>
    hasClassWord e "captcha-verify-slide-bar" ||
    attrContains e "div" "class" "captcha" ||
    attrContains e "iframe" "title" "captcha")

/-- Selector `input[name*="captcha"], input[id*="captcha"]`. -/
def textCaptchaProbe (page : PageDom) : Bool :=
  page.any (fun e =>
    attrContains e "input" "name" "captcha" ||
    attrContains e "input" "id" "captcha")

/-- Selector `img[src*="captcha"], img[alt*="captcha"]`. -/
def imageCaptchaProbe (page : PageDom) : Bool :=
  page.any (fun e =>
    attrContains e "img" "src" "captcha" ||
    attrContains e "img" "alt" "captcha")

/-- Which solver `detect_and_solve_captcha` dispatches to (or
`notDetected` for the `{"detected": False}` return). -/
inductive CaptchaDispatch where
  | recaptchaV2
  | hcaptcha
  | sliderPuzzle
  | textCaptcha
  | imageCaptcha
  | notDetected
deriving DecidableEq, Repr

/-- The detection chain of `detect_and_solve_captcha`: probe families
in source order, first match wins. -/
def detect_and_solve_captcha (page : PageDom) : CaptchaDispatch :=
  if recaptchaV2Probe page then .recaptchaV2
  else if hcaptchaProbe page then .hcaptcha
  else if sliderProbe page then .sliderPuzzle
  else if textCaptchaProbe page then .textCaptcha
  else if imageCaptchaProbe page then .imageCaptcha
  else .notDetected

/-! ## Slider-puzzle resolution (`solve_tiktok_puzzle_captcha`)

The dynamic page and the random number generator are abstracted as an
explicit world: per-attempt draws of `random.uniform(0.4, 0.7)` and
`random.randint(20, 30)`, and the per-attempt results of the two
verification queries (a success-marker selector inside the frame, and
the challenge-DOM presence query on the page). -/

/-- Python `int()` truncation toward zero, on rationals. -/
def pyIntTrunc (q : ℚ) : ℤ :=
  if 0 ≤ q then q.floor else -(-q).floor

/-- Oracle world for one call of `solve_tiktok_puzzle_captcha`. -/
structure SliderWorld where
  /-- Whether `iframe[src*="captcha"], iframe[title*="captcha"]` found. -/
  captchaFrameFound : Bool
  /-- Whether `content_frame()` accessible when an iframe was found. -/
  frameAccessible : Bool
  /-- Whether `div[class*="captcha-verify"], .captcha_verify_container` found. -/
  puzzleContainerFound : Bool
  /-- some drag-handle selector matched. -/
  sliderFound : Bool
  /-- Whether `slider.bounding_box()` returned coordinates. -/
  sliderBoxAvailable : Bool
  /-- Value of `document.documentElement.clientWidth`. -/
  clientWidth : ℚ
  /-- Value of `random.uniform(0.4, 0.7)` drawn in attempt k. -/
  uniformDraw : Nat → ℚ
  /-- Value of `random.randint(20, 30)` drawn in attempt k. -/
  stepsDraw : Nat → Nat
  /-- a success-marker selector matched after attempt k. -/
  successMarkerPresent : Nat → Bool
  /-- Whether `iframe[src*="captcha"], div[class*="captcha"]` still present
  after attempt k. -/
  captchaStillPresent : Nat → Bool

/-- Parameters of one executed drag attempt. -/
structure AttemptInfo where
  distance : ℤ
  steps : Nat
deriving DecidableEq, Repr

/-- Result value of `solve_tiktok_puzzle_captcha`, abstracted to the
fields the claims are about. -/
inductive PuzzleOutcome where
  /-- Model of `{"detected": False, ...}`. -/
  | notDetected
  /-- Model of `{"detected": True, "solved": False, "error": ...}` before any drag. -/
  | failedError
  /-- Model of `{"detected": True, "solved": True, "attempt": k}`. -/
  | solvedAt (attempt : Nat)
  /-- Model of `{"detected": True, "solved": False, ...}` after three failures. -/
  | failedAllAttempts
deriving DecidableEq, Repr

/-- Result plus the trace of drag attempts performed. -/
structure PuzzleResult where
  outcome : PuzzleOutcome
  attempts : List AttemptInfo
deriving DecidableEq, Repr

/-- The `for attempt in range(3)` loop: compute the slide distance from
`max_drag_distance` and the uniform draw, perform the drag with the
drawn step count, then check the success marker and the challenge-DOM
presence (`success = marker ∨ ¬still_present`). -/
def sliderAttemptLoop (w : SliderWorld) (maxDrag : ℚ) :
    Nat → Nat → List AttemptInfo → PuzzleResult
  | 0, _, trace => ⟨.failedAllAttempts, trace⟩
  | remaining + 1, k, trace =>
    let slideDistance := pyIntTrunc (maxDrag * w.uniformDraw k)
    let steps := w.stepsDraw k
    let trace := trace ++ [⟨slideDistance, steps⟩]
    let success := w.successMarkerPresent k || !w.captchaStillPresent k
    if success then ⟨.solvedAt (k + 1), trace⟩
    else sliderAttemptLoop w maxDrag remaining (k + 1) trace

/-- Model of `solve_tiktok_puzzle_captcha`: detection preconditions, then
`max_drag_distance = min(total_width * 0.8, 300)` (the `min` written out as a conditional) and at most three
drag attempts. -/
def solve_tiktok_puzzle_captcha (w : SliderWorld) : PuzzleResult :=
  if !w.captchaFrameFound && !w.puzzleContainerFound then ⟨.notDetected, []⟩
  else if w.captchaFrameFound && !w.frameAccessible then ⟨.failedError, []⟩
  else if !w.sliderFound then ⟨.failedError, []⟩
  else if !w.sliderBoxAvailable then ⟨.failedError, []⟩
  else
    let widthCap := w.clientWidth * (4 / 5 : ℚ)
    let maxDrag := if widthCap ≤ 300 then widthCap else (300 : ℚ)
    sliderAttemptLoop w maxDrag 3 0 []

/-! ## Tool registry route (src/2.0/mcp_server/main.py, `/tools/execute`)

Tool implementations are abstracted as `impl : String → Except String
String` (`Except.error` models the awaited call raising).  An unknown
tool name raises `HTTPException(400, f"Unknown tool: {tool_name}")`,
whose `str()` is `"400: Unknown tool: ..."`; the surrounding
`except Exception` turns every raise into
`ToolResponse(success=False, error=str(e))`. -/

/-- FastAPI `ToolResponse`. -/
structure ToolResponse where
  success : Bool
  result : Option String
  error : Option String
deriving DecidableEq, Repr

/-- The tool names dispatched by the `/tools/execute` route. -/
def KNOWN_TOOLS : List String :=
  ["navigate", "screenshot", "click", "scroll", "type", "get_page_info",
   "write_file", "download_tiktok_video", "get_tiktok_profile_videos",
   "analyze_tiktok_url"]

/-- The `outcome` of the `if/elif` dispatch chain of the route, in
source order, with the unknown-tool raise as an `Except.error`. -/
def routeDispatch (impl : String → Except String String)
    (toolName : String) : Except String String :=
  if toolName == "navigate" then impl toolName
  else if toolName == "screenshot" then impl toolName
  else if toolName == "click" then impl toolName
  else if toolName == "scroll" then impl toolName
  else if toolName == "type" then impl toolName
  else if toolName == "get_page_info" then impl toolName
  else if toolName == "write_file" then impl toolName
  else if toolName == "download_tiktok_video" then impl toolName
  else if toolName == "get_tiktok_profile_videos" then impl toolName
  else if toolName == "analyze_tiktok_url" then impl toolName
  else Except.error ("400: Unknown tool: " ++ toolName)

/-- The `/tools/execute` route body: dispatch, then the catch-all
`except Exception` conversion into a `ToolResponse`. -/
def execute_tool_route (impl : String → Except String String)
    (toolName : String) : ToolResponse :=
  match routeDispatch impl toolName with
  | .ok r => ⟨true, some r, none⟩
  | .error e => ⟨false, none, some e⟩

/-! ## Client-side tool boundary (src/py/client.py, `Server.execute_tool`)

The MCP `call_tool` outcome and the secondary `get_page_info` call are
abstracted as `Except` values; every exception from the call is caught
and converted into an error text block, so the orchestrator loop never
sees a raise. -/

/-- Content items of a `CallToolResult`. -/
inductive MCPContent where
  | image (data : String)
  | text (t : String)
  | res (uri : Option String) (txt : Option String)
deriving DecidableEq, Repr

/-- Translation of one content item into response blocks
(`Server.execute_tool`, result-processing loop). -/
def processContentItem : MCPContent → List Block
  | .image d =>
    [[("json", .kv [("filename", "screenshot.jpeg")])],
     [("image", .kv [("format", "jpeg"), ("data", d)])]]
  | .text t => [[("json", .kv [("text", t)])]]
  | .res uri txt =>
    (match uri with
     | some u => [[("json", .kv [("resource", u)])]]
     | none => []) ++
    (match txt with
     | some t => [[("json", .kv [("resource", t)])]]
     | none => [])

/-- The `{"toolResult": {"toolUseId": ..., "content": ...}}` value
returned by `Server.execute_tool`. -/
structure ClientToolResult where
  toolUseId : String
  content : List Block
deriving DecidableEq, Repr

/-- Model of `Server.execute_tool`: process the call outcome, append the
best-effort page-info block (its own failure ignored), and convert any
exception from the call into an error text block. -/
def Server_execute_tool (toolName : String) (toolId : String)
    (callOutcome : Except String (List MCPContent))
    (pageInfoOutcome : Except String String) : ClientToolResult :=
  match callOutcome with
  | .error e =>
    ⟨toolId, [[("text", .s ("Error executing tool " ++ toolName ++ ": " ++ e))]]⟩
  | .ok items =>
    let responseContent := items.foldl (fun acc it => acc ++ processContentItem it) []
    let withPage :=
      match pageInfoOutcome with
      | .ok t => responseContent ++ [[("text", .s ("Current page: " ++ t))]]
      | .error _ => responseContent
    ⟨toolId, withPage⟩

/-! ## Artifact writing (`write_file` in src/py/server.py and
src/2.0/mcp_server/server.py) -/

/-- Python string slice `s[:n]`. -/
def pyTake (s : String) (n : Nat) : String :=
  ⟨s.data.take n⟩

/-- The `TextResourceContents` value embedded in the returned resource. -/
structure TextResourceContents where
  uri : String
  mimeType : String
  text : String
deriving DecidableEq, Repr

/-- What one `write_file(filename, content)` call does: the file
written to disk and the `EmbeddedResource` returned to the caller. -/
structure WriteFileEffect where
  path : String
  written : String
  resource : TextResourceContents
deriving DecidableEq, Repr

/-- Model of `write_file`: write the full `content` to the artifact path, return
a resource whose `text` is `content[:100]` (mime from the filename
suffix checks, in source order). -/
def write_file (sessionId filename content : String) : WriteFileEffect :=
  let full := "artefacts/" ++ sessionId ++ "/" ++ filename
  let uri := "artifact://" ++ sessionId ++ "/" ++ filename
  let mime0 := "text/plain"
  let mime1 := if filename.endsWith ".md" then "text/markdown" else mime0
  let mime2 := if filename.endsWith ".html" then "text/html" else mime1
  let mime := if filename.endsWith ".json" then "application/json" else mime2
  ⟨full, content, ⟨uri, mime, pyTake content 100⟩⟩

/-! ## Concrete inputs for witnesses and counterexamples -/

/-- A bare tool-call response, as the system prompt instructs the LLM
to produce. -/
def toolCallText : String :=
  "\x7b\"tool\": \"navigate\", \"arguments\": \x7b\"url\": \"https://example.com\"\x7d\x7d"

/-- The dict parsed from `toolCallText`. -/
def toolCallJson : Json :=
  .obj [("tool", .str "navigate"),
        ("arguments", .obj [("url", .str "https://example.com")])]

/-- An LLM whose every response is `toolCallText`. -/
def respAllTool : Nat → String := fun _ => toolCallText

/-- An LLM whose first three responses are tool calls and whose fourth
is plain text. -/
def respThreeTools : Nat → String :=
  fun k => if k < 3 then toolCallText else "All done."

/-- A tool-call object carrying an extra key besides `tool` and
`arguments`. -/
def extraKeyText : String :=
  "\x7b\"tool\": \"a\", \"arguments\": \x7b\x7d, \"extra\": 1\x7d"

/-- The dict parsed from `extraKeyText`. -/
def extraKeyJson : Json :=
  .obj [("tool", .str "a"), ("arguments", .obj []), ("extra", .num "1")]

/-- A json-tagged fenced block whose captured braces hold malformed
JSON. -/
def malformedFencedText : String :=
  "```json \x7b\"tool\": \x7d ```"

/-- A reCAPTCHA v2 anchor iframe. -/
def recaptchaAnchorFrame : Element :=
  ⟨"iframe", [("src", "https://www.google.com/recaptcha/api2/anchor?ar=1")]⟩

/-- The slider-puzzle container of Scenario C. -/
def sliderContainerDiv : Element :=
  ⟨"div", [("class", "captcha_verify_container")]⟩

/-- A page carrying both a reCAPTCHA anchor iframe and a slider-puzzle
container. -/
def pageBothFamilies : PageDom := [recaptchaAnchorFrame, sliderContainerDiv]

/-- A page carrying only the slider-puzzle container. -/
def pageSliderOnly : PageDom := [sliderContainerDiv]

/-- Slider world in which attempt 0 finds a success marker while the
challenge DOM is still present (`captchaStillPresent 0 = true`). -/
def markerWorld : SliderWorld :=
  ⟨false, true, true, true, true, 1000, fun _ => (1 / 2 : ℚ), fun _ => 25,
   fun k => k = 0, fun _ => true⟩

/-- Slider world in which every attempt fails verification; the uniform
draw is the lower end 0.4 of the range, so with `clientWidth = 1000`
each drag distance is `int(min(800, 300) * 0.4) = 120`. -/
def lowDrawWorld : SliderWorld :=
  ⟨false, true, true, true, true, 1000, fun _ => (2 / 5 : ℚ), fun _ => 25,
   fun _ => false, fun _ => true⟩

/-- Scenario B conversation: a system message plus 9 further turns. -/
def scenarioConv : List Msg :=
  [⟨.system, .ofString "sys"⟩, ⟨.user, .ofString "t1"⟩,
   ⟨.assistant, .ofString "r1"⟩, ⟨.user, .ofString "t2"⟩,
   ⟨.assistant, .ofString "r2"⟩, ⟨.user, .ofString "t3"⟩,
   ⟨.assistant, .ofString "r3"⟩, ⟨.user, .ofString "t4"⟩,
   ⟨.assistant, .ofString "r4"⟩, ⟨.user, .ofString "t5"⟩]

/-- A trivial tool-implementation oracle. -/
def implOk : String → Except String String := fun _ => .ok "done"

/-! ## Orchestrator-reachable conversation states (for the invariant)

`ChatSession._prepare_llm` adds the single system message to the fresh
conversation; the orchestrator loops (`execute_task`,
`handle_task_execution`, `start`) only append user and assistant
messages and call `summarize_conversation` (with the code's
`KEEP_LAST_TURNS`) and `remove_media_except_last_turn`. -/

/-- Conversation states reachable by the operations of the orchestrator. -/
inductive ReachableConv : List Msg → Prop where
  | empty : ReachableConv []
  | prepare (c : Content) : ReachableConv [⟨.system, c⟩]
  | addUser (msgs : List Msg) (c : Content) :
      ReachableConv msgs → ReachableConv (add_message msgs .user c)
  | addAssistant (msgs : List Msg) (c : Content) :
      ReachableConv msgs → ReachableConv (add_message msgs .assistant c)
  | summarize (msgs : List Msg) (tokens : Nat) (summary : Option String) :
      ReachableConv msgs →
      ReachableConv (summarize_conversation KEEP_LAST_TURNS msgs tokens summary).1
  | removeMedia (msgs : List Msg) :
      ReachableConv msgs → ReachableConv (remove_media_except_last_turn msgs)

/-- No message after index 0 has the system role. -/
def NoLateSystem (msgs : List Msg) : Prop :=
  ∀ r ∈ (msgs.map Msg.role).drop 1, r ≠ Role.system

/-! ## Helper lemmas -/

/-- The computable `Rat.floor` of Batteries agrees with the `Int.floor` of the
`FloorRing` instance. -/
theorem ratFloor_eq_floor (q : ℚ) : q.floor = ⌊q⌋ :=
  (Rat.floor_def' q).trans Rat.floor_def.symm

/-- Length of a Python string slice `s[:n]`. -/
theorem pyTake_length (s : String) (n : Nat) :
    (pyTake s n).length = min n s.length := by
  show (s.data.take n).length = min n s.data.length
  simp

/-! ## C10 -/

/-- C10: `write_file` writes the full `content` to the artifact file,
but the `text` of the returned resource is only `content[:100]`, so the
surfaced resource is truncated whenever `content` is longer than 100
characters. -/
theorem C10_write_file_truncates_resource :
    ∀ sessionId filename content : String,
      (write_file sessionId filename content).written = content ∧
      (write_file sessionId filename content).resource.text = pyTake content 100 ∧
      (100 < content.length →
        (write_file sessionId filename content).resource.text ≠ content) := by
  intro sid fn content
  refine ⟨rfl, rfl, fun h hc => ?_⟩
  have hl := congrArg String.length hc
  rw [write_file] at hl
  simp only [pyTake_length] at hl
  omega

/-- A 150-character content string. -/
theorem C10_witness :
    (write_file "s" "report.txt" ⟨List.replicate 150 'a'⟩).resource.text ≠
      (⟨List.replicate 150 'a'⟩ : String) :=
  (C10_write_file_truncates_resource "s" "report.txt" ⟨List.replicate 150 'a'⟩).2.2
    (by decide)

/-! ## C6 -/

/-- C6: at the tool-registry boundary, an unknown tool name yields a
`success:false` response whose error names the unknown tool; every
tool-level failure is converted into `success:false` plus an error
string (a success gives `success:true`); and the client-side
`Server.execute_tool` converts any exception from the tool call into an
error text block instead of raising out of the orchestrator loop. -/
theorem C6_tool_registry_boundary :
    (∀ (impl : String → Except String String) (toolName : String),
        toolName ∉ KNOWN_TOOLS →
        execute_tool_route impl toolName =
          ⟨false, none, some ("400: Unknown tool: " ++ toolName)⟩) ∧
    (∀ (impl : String → Except String String) (toolName e : String),
        toolName ∈ KNOWN_TOOLS → impl toolName = .error e →
        execute_tool_route impl toolName = ⟨false, none, some e⟩) ∧
    (∀ (impl : String → Except String String) (toolName r : String),
        toolName ∈ KNOWN_TOOLS → impl toolName = .ok r →
        execute_tool_route impl toolName = ⟨true, some r, none⟩) ∧
    (∀ (toolName toolId e : String) (pageInfo : Except String String),
        Server_execute_tool toolName toolId (.error e) pageInfo =
          ⟨toolId,
           [[("text", .s ("Error executing tool " ++ toolName ++ ": " ++ e))]]⟩) := by
  refine ⟨?_, ?_, ?_, ?_⟩
  · intro impl name h
    simp only [KNOWN_TOOLS, List.mem_cons, List.not_mem_nil, or_false, not_or] at h
    obtain ⟨h1, h2, h3, h4, h5, h6, h7, h8, h9, h10⟩ := h
    have hd : routeDispatch impl name =
        Except.error ("400: Unknown tool: " ++ name) := by
      unfold routeDispatch
      rw [if_neg (by simpa using h1), if_neg (by simpa using h2),
        if_neg (by simpa using h3), if_neg (by simpa using h4),
        if_neg (by simpa using h5), if_neg (by simpa using h6),
        if_neg (by simpa using h7), if_neg (by simpa using h8),
        if_neg (by simpa using h9), if_neg (by simpa using h10)]
    unfold execute_tool_route
    rw [hd]
  · intro impl name e hmem himpl
    simp only [KNOWN_TOOLS, List.mem_cons, List.not_mem_nil, or_false] at hmem
    rcases hmem with rfl | rfl | rfl | rfl | rfl | rfl | rfl | rfl | rfl | rfl <;>
      simp [execute_tool_route, routeDispatch, himpl]
  · intro impl name r hmem himpl
    simp only [KNOWN_TOOLS, List.mem_cons, List.not_mem_nil, or_false] at hmem
    rcases hmem with rfl | rfl | rfl | rfl | rfl | rfl | rfl | rfl | rfl | rfl <;>
      simp [execute_tool_route, routeDispatch, himpl]
  · intro toolName toolId e pageInfo
    rfl

/-- A concrete unknown tool name at the registry boundary. -/
theorem C6_witness :
    execute_tool_route implOk "foobar" =
      ⟨false, none, some "400: Unknown tool: foobar"⟩ :=
  C6_tool_registry_boundary.1 implOk "foobar" (by decide)

/-! ## C4 -/

/-- C4 (amended): a full characterization of `extract_tool_call_json`.
Whenever it returns a dict, that dict contains both a `tool` and an
`arguments` key (it may contain further keys); every input with no
candidate string (no json-tagged fenced match and not brace-delimited,
which includes fenced blocks not tagged json) yields `none`; every
candidate that is malformed JSON yields `none`; every candidate whose
JSON value is not a dict with both keys yields `none`; and a nonempty
candidate parsing to a value with both keys is returned as-is. -/
theorem C4_extract_returns_tool_call_keys :
    (∀ (text : String) (d : Json), extract_tool_call_json text = some d →
        hasKeyJ d "tool" = true ∧ hasKeyJ d "arguments" = true) ∧
    (∀ text : String, toolCallCandidate text = none →
        extract_tool_call_json text = none) ∧
    (∀ (text : String) (js : List Char), toolCallCandidate text = some js →
        json_loads ⟨js⟩ = none → extract_tool_call_json text = none) ∧
    (∀ (text : String) (js : List Char) (v : Json),
        toolCallCandidate text = some js → json_loads ⟨js⟩ = some v →
        (hasKeyJ v "tool" = false ∨ hasKeyJ v "arguments" = false) →
        extract_tool_call_json text = none) ∧
    (∀ (text : String) (js : List Char) (v : Json),
        toolCallCandidate text = some js → js.isEmpty = false →
        json_loads ⟨js⟩ = some v → hasKeyJ v "tool" = true →
        hasKeyJ v "arguments" = true →
        extract_tool_call_json text = some v) := by
  refine ⟨?_, ?_, ?_, ?_, ?_⟩
  · intro text d h
    unfold extract_tool_call_json at h
    split at h
    · simp at h
    · split at h
      · simp at h
      · split at h
        · next fields hj =>
          split at h
          · next hk =>
            obtain ⟨hk1, hk2⟩ := Bool.and_eq_true_iff.mp hk
            cases h
            exact ⟨hk1, hk2⟩
          · simp at h
        · simp at h
  · intro text hc
    unfold extract_tool_call_json
    rw [hc]
  · intro text js hc hl
    unfold extract_tool_call_json
    rw [hc]
    dsimp only
    by_cases he : js.isEmpty
    · rw [if_pos he]
    · rw [if_neg he, hl]
  · intro text js v hc hl hk
    unfold extract_tool_call_json
    rw [hc]
    dsimp only
    by_cases he : js.isEmpty
    · rw [if_pos he]
    · rw [if_neg he, hl]
      cases v with
      | obj fields =>
        have hcond : ¬((fields.any (fun kv => kv.1 == "tool") &&
            fields.any (fun kv => kv.1 == "arguments")) = true) := by
          rcases hk with hk0 | hk0 <;> simp only [hasKeyJ] at hk0 <;> simp [hk0]
        dsimp only
        rw [if_neg hcond]
      | null => rfl
      | bool b => rfl
      | num lit => rfl
      | str s => rfl
      | arr items => rfl
  · intro text js v hc hne hl hk1 hk2
    unfold extract_tool_call_json
    rw [hc]
    dsimp only
    rw [if_neg (by rw [hne]; exact Bool.false_ne_true), hl]
    cases v with
    | obj fields =>
      simp only [hasKeyJ] at hk1 hk2
      dsimp only
      rw [if_pos (by rw [hk1, hk2]; rfl)]
    | null => simp [hasKeyJ] at hk1
    | bool b => simp [hasKeyJ] at hk1
    | num lit => simp [hasKeyJ] at hk1
    | str s => simp [hasKeyJ] at hk1
    | arr items => simp [hasKeyJ] at hk1

/-- A valid bare tool-call response parses and carries both keys; an
input with no candidate and a malformed fenced candidate both yield
`none` through the theorem. -/
theorem C4_witness :
    extract_tool_call_json toolCallText = some toolCallJson ∧
      (hasKeyJ toolCallJson "tool" = true ∧
       hasKeyJ toolCallJson "arguments" = true) ∧
      extract_tool_call_json "just some text" = none ∧
      extract_tool_call_json malformedFencedText = none :=
  ⟨rfl,
   C4_extract_returns_tool_call_keys.1 toolCallText toolCallJson rfl,
   C4_extract_returns_tool_call_keys.2.1 "just some text" rfl,
   C4_extract_returns_tool_call_keys.2.2.1 malformedFencedText
     ("\x7b\"tool\": \x7d" : String).data rfl rfl⟩

/-- C4 counterexample: on a bare JSON object with keys `tool`,
`arguments` and `extra`, the function returns the three-key dict — so
it neither returns a dict with exactly the keys `tool`/`arguments` nor
returns `None` on this input. -/
theorem C4_counterexample_extra_key :
    extract_tool_call_json extraKeyText = some extraKeyJson ∧
      hasKeyJ extraKeyJson "extra" = true ∧
      (extract_tool_call_json extraKeyText).isSome = true :=
  ⟨rfl, rfl, rfl⟩

/-! ## C8 -/

/-- Scrubbing never changes the role of a message. -/
theorem scrubMsg_role (m : Msg) : (scrubMsg m).role = m.role := by
  rcases m with ⟨r, c⟩
  cases c with
  | ofString s => rfl
  | ofBlocks bs =>
    simp only [scrubMsg]
    split <;> rfl

/-- The placeholder block is kept by the filter. -/
theorem keepBlock_placeholder : keepBlock placeholderBlock = true := by
  decide

/-- Scrubbing a message twice equals scrubbing it once. -/
theorem scrubMsg_idem (m : Msg) : scrubMsg (scrubMsg m) = scrubMsg m := by
  rcases m with ⟨r, c⟩
  cases c with
  | ofString s => rfl
  | ofBlocks bs =>
    simp only [scrubMsg]
    by_cases h : (bs.filter keepBlock).isEmpty
    · rw [if_pos h]
      simp [scrubMsg, List.filter, keepBlock_placeholder]
    · rw [if_neg h]
      simp only [scrubMsg]
      rw [List.filter_filter]
      simp only [Bool.and_self]
      rw [if_neg h]

/-- The most recent user index is strictly below the list length. -/
theorem lastUserIndexR_lt_length (rs : List Role) (j : Nat) :
    lastUserIndexR rs = some j → j < rs.length := by
  induction rs generalizing j with
  | nil => intro h; cases h
  | cons r rest ih =>
    intro h
    rw [lastUserIndexR] at h
    cases hr : lastUserIndexR rest with
    | some j' =>
      simp only [hr] at h
      cases h
      have := ih j' hr
      simp only [List.length_cons]
      omega
    | none =>
      simp only [hr] at h
      split at h
      · cases h
        simp
      · cases h

/-- Media removal preserves the role sequence of the conversation. -/
theorem remove_media_roles (msgs : List Msg) :
    (remove_media_except_last_turn msgs).map Msg.role = msgs.map Msg.role := by
  unfold remove_media_except_last_turn
  split
  · rfl
  · split
    · rfl
    · next j _ =>
      rw [List.map_append, List.map_map]
      conv_rhs => rw [← List.take_append_drop j msgs, List.map_append]
      congr 1
      exact List.map_congr_left (fun a _ => scrubMsg_role a)

/-- C8: `remove_media_except_last_turn` is idempotent — applying it a
second time immediately after a first application leaves the message
list unchanged. -/
theorem C8_remove_media_idempotent :
    ∀ msgs : List Msg,
      remove_media_except_last_turn (remove_media_except_last_turn msgs) =
        remove_media_except_last_turn msgs := by
  intro msgs
  by_cases hlen : msgs.length < 2
  · have h1 : remove_media_except_last_turn msgs = msgs := by
      unfold remove_media_except_last_turn
      rw [if_pos hlen]
    rw [h1, h1]
  · cases hli : lastUserIndexR (msgs.map Msg.role) with
    | none =>
      have h1 : remove_media_except_last_turn msgs = msgs := by
        unfold remove_media_except_last_turn
        rw [if_neg hlen]
        simp only [hli]
      rw [h1, h1]
    | some j =>
      have hj : j < msgs.length := by
        have := lastUserIndexR_lt_length _ _ hli
        simpa using this
      have h1 : remove_media_except_last_turn msgs =
          (msgs.take j).map scrubMsg ++ msgs.drop j := by
        unfold remove_media_except_last_turn
        rw [if_neg hlen]
        simp only [hli]
      have hroles : ((msgs.take j).map scrubMsg ++ msgs.drop j).map Msg.role =
          msgs.map Msg.role := by
        rw [← h1]
        exact remove_media_roles msgs
      have htk : ((msgs.take j).map scrubMsg).length = j := by
        simp [List.length_take]
        omega
      have hlenr : ((msgs.take j).map scrubMsg ++ msgs.drop j).length =
          msgs.length := by
        have := congrArg List.length hroles
        simpa using this
      rw [h1]
      unfold remove_media_except_last_turn
      rw [if_neg (by rw [hlenr]; exact hlen)]
      rw [hroles]
      simp only [hli]
      have h3 : ((msgs.take j).map scrubMsg ++ msgs.drop j).take j =
          (msgs.take j).map scrubMsg := List.take_left' htk
      have h4 : ((msgs.take j).map scrubMsg ++ msgs.drop j).drop j =
          msgs.drop j := List.drop_left' htk
      rw [h3, h4, List.map_map]
      congr 1
      exact List.map_congr_left (fun a _ => scrubMsg_idem a)

/-! ## C1 -/

/-- If every continuation response parses as a tool call, the capped
loop runs its remaining fuel to the step cap. -/
theorem handleTaskLoop_allTool (resp : Nat → String) (maxSteps : Nat)
    (hall : ∀ k, (extract_tool_call_json (resp k)).isSome = true) :
    ∀ fuel sc, handleTaskLoop resp maxSteps fuel sc =
      ⟨sc + fuel, sc + fuel + 1, decide (maxSteps ≤ sc + fuel), false⟩ := by
  intro fuel
  induction fuel with
  | zero => intro sc; simp [handleTaskLoop]
  | succ f ih =>
    intro sc
    rw [handleTaskLoop]
    cases hx : extract_tool_call_json (resp (sc + 1)) with
    | none =>
      have h := hall (sc + 1)
      rw [hx] at h
      simp at h
    | some v =>
      simp only [hx]
      rw [ih (sc + 1)]
      have : sc + 1 + f = sc + (f + 1) := by omega
      rw [this]
  
/-- The capped loop stops at the first non-tool response within its
fuel window. -/
theorem handleTaskLoop_firstNonTool (resp : Nat → String) (maxSteps j : Nat)
    (hj : extract_tool_call_json (resp j) = none)
    (hall : ∀ k, 0 < k → k < j → (extract_tool_call_json (resp k)).isSome = true) :
    ∀ fuel sc, sc < j → j ≤ sc + fuel →
      handleTaskLoop resp maxSteps fuel sc =
        ⟨j, j + 1, decide (maxSteps ≤ j), true⟩ := by
  intro fuel
  induction fuel with
  | zero => intro sc h1 h2; omega
  | succ f ih =>
    intro sc h1 h2
    rw [handleTaskLoop]
    by_cases hsc : sc + 1 = j
    · rw [hsc, hj]
    · have hk := hall (sc + 1) (by omega) (by omega)
      cases hx : extract_tool_call_json (resp (sc + 1)) with
      | none => rw [hx] at hk; simp at hk
      | some v =>
        simp only [hx]
        exact ih (sc + 1) (by omega) (by omega)

/-- The uncapped CLI loop never stops while responses keep parsing as
tool calls. -/
theorem executeTaskLoop_allTool (resp : Nat → String)
    (hall : ∀ k, (extract_tool_call_json (resp k)).isSome = true) :
    ∀ fuel sc, executeTaskLoop resp fuel sc = none := by
  intro fuel
  induction fuel with
  | zero => intro sc; rfl
  | succ f ih =>
    intro sc
    rw [executeTaskLoop]
    cases hx : extract_tool_call_json (resp (sc + 1)) with
    | none =>
      have h := hall (sc + 1)
      rw [hx] at h
      simp at h
    | some v =>
      simp only [hx]
      exact ih (sc + 1)

/-- The uncapped CLI loop stops at the first non-tool response. -/
theorem executeTaskLoop_firstNonTool (resp : Nat → String) (j : Nat)
    (hj : extract_tool_call_json (resp j) = none)
    (hall : ∀ k, 0 < k → k < j → (extract_tool_call_json (resp k)).isSome = true) :
    ∀ fuel sc, sc < j → j ≤ sc + fuel →
      executeTaskLoop resp fuel sc = some (j, j + 1) := by
  intro fuel
  induction fuel with
  | zero => intro sc h1 h2; omega
  | succ f ih =>
    intro sc h1 h2
    rw [executeTaskLoop]
    by_cases hsc : sc + 1 = j
    · rw [hsc, hj]
    · have hk := hall (sc + 1) (by omega) (by omega)
      cases hx : extract_tool_call_json (resp (sc + 1)) with
      | none => rw [hx] at hk; simp at hk
      | some v =>
        simp only [hx]
        exact ih (sc + 1) (by omega) (by omega)

/-- C1 (amended): the web-interface orchestrator
(`handle_task_execution`) executes at most `max_steps = 20` tool steps:
when every response parses as a tool call it stops after exactly 20
tool steps and 21 LLM calls with the "maximum steps … review the
results" note, and it stops at the first non-tool response with `j`
steps and `j + 1` LLM calls when that response occurs at index
`j ≤ 20`; the CLI orchestrator (`ChatSession.execute_task`) has no step
cap and stops exactly at the first non-tool response. -/
theorem C1_orchestrator_termination :
    (∀ resp : Nat → String,
        (∀ k, (extract_tool_call_json (resp k)).isSome = true) →
        handle_task_execution resp MAX_STEPS =
          ⟨MAX_STEPS, MAX_STEPS + 1, true, false⟩) ∧
    (∀ (resp : Nat → String) (j : Nat), j ≤ MAX_STEPS →
        extract_tool_call_json (resp j) = none →
        (∀ k, k < j → (extract_tool_call_json (resp k)).isSome = true) →
        handle_task_execution resp MAX_STEPS =
          ⟨j, j + 1, decide (MAX_STEPS ≤ j), true⟩) ∧
    (∀ (resp : Nat → String) (j fuel : Nat), j ≤ fuel →
        extract_tool_call_json (resp j) = none →
        (∀ k, k < j → (extract_tool_call_json (resp k)).isSome = true) →
        execute_task resp fuel = some (j, j + 1)) := by
  refine ⟨?_, ?_, ?_⟩
  · intro resp hall
    unfold handle_task_execution
    cases hx : extract_tool_call_json (resp 0) with
    | none =>
      have h := hall 0
      rw [hx] at h
      simp at h
    | some v =>
      rw [handleTaskLoop_allTool resp MAX_STEPS hall MAX_STEPS 0]
      simp [MAX_STEPS]
  · intro resp j hjle hj hall
    unfold handle_task_execution
    cases j with
    | zero =>
      rw [hj]
      simp [MAX_STEPS]
    | succ i =>
      have h0 := hall 0 (by omega)
      cases hx : extract_tool_call_json (resp 0) with
      | none => rw [hx] at h0; simp at h0
      | some v =>
        exact handleTaskLoop_firstNonTool resp MAX_STEPS (i + 1) hj
          (fun k _ hk => hall k hk) MAX_STEPS 0 (by omega) (by omega)
  · intro resp j fuel hjle hj hall
    unfold execute_task
    cases j with
    | zero => rw [hj]
    | succ i =>
      have h0 := hall 0 (by omega)
      cases hx : extract_tool_call_json (resp 0) with
      | none => rw [hx] at h0; simp at h0
      | some v =>
        exact executeTaskLoop_firstNonTool resp (i + 1) hj
          (fun k _ hk => hall k hk) fuel 0 (by omega) (by omega)

/-- An all-tool-call LLM drives the capped orchestrator to the 20-step
abort with the review note. -/
theorem C1_witness :
    handle_task_execution respAllTool MAX_STEPS =
      ⟨MAX_STEPS, MAX_STEPS + 1, true, false⟩ :=
  C1_orchestrator_termination.1 respAllTool (fun _ => rfl)

/-- C1 counterexample: under the same all-tool-call LLM, the CLI
orchestrator `ChatSession.execute_task` is still executing tool calls
after 25 tool-execution steps — there is no `max_steps` cap in that
loop, contradicting the claim that every orchestrator execution stops
within 20 tool steps. -/
theorem C1_counterexample_execute_task_uncapped :
    execute_task respAllTool 25 = none ∧ 20 < 25 := by
  constructor
  · unfold execute_task
    cases hx : extract_tool_call_json (respAllTool 0) with
    | none =>
      have h : (extract_tool_call_json (respAllTool 0)).isSome = true := rfl
      rw [hx] at h
      simp at h
    | some v =>
      exact executeTaskLoop_allTool respAllTool (fun _ => rfl) 25 0
  · omega

/-! ## C2 and C7 -/

/-- Unfolding equation for one drag attempt. -/
theorem sliderAttemptLoop_succ (w : SliderWorld) (maxDrag : ℚ)
    (f k0 : Nat) (trace : List AttemptInfo) :
    sliderAttemptLoop w maxDrag (f + 1) k0 trace =
      if (w.successMarkerPresent k0 || !w.captchaStillPresent k0) = true then
        ⟨.solvedAt (k0 + 1),
         trace ++ [⟨pyIntTrunc (maxDrag * w.uniformDraw k0), w.stepsDraw k0⟩]⟩
      else
        sliderAttemptLoop w maxDrag f (k0 + 1)
          (trace ++ [⟨pyIntTrunc (maxDrag * w.uniformDraw k0), w.stepsDraw k0⟩]) :=
  rfl

/-- If the attempt loop reports success at attempt `k`, then the
verification condition held after attempt `k - 1`: a success marker was
present, or the challenge DOM was gone. -/
theorem sliderAttemptLoop_solvedAt (w : SliderWorld) (maxDrag : ℚ) :
    ∀ (rem k0 : Nat) (trace : List AttemptInfo) (k : Nat),
      (sliderAttemptLoop w maxDrag rem k0 trace).outcome = .solvedAt k →
      k0 < k ∧ k ≤ k0 + rem ∧
        (w.successMarkerPresent (k - 1) = true ∨
         w.captchaStillPresent (k - 1) = false) := by
  intro rem
  induction rem with
  | zero =>
    intro k0 trace k h
    simp [sliderAttemptLoop] at h
  | succ f ih =>
    intro k0 trace k h
    rw [sliderAttemptLoop_succ] at h
    split at h
    · next hs =>
      simp only at h
      cases h
      refine ⟨by omega, by omega, ?_⟩
      simp only [Nat.add_sub_cancel]
      cases hm : w.successMarkerPresent k0 with
      | true => exact Or.inl rfl
      | false =>
        right
        rw [hm] at hs
        simpa using hs
    · obtain ⟨a, b, c⟩ := ih (k0 + 1) _ k h
      exact ⟨by omega, by omega, c⟩

/-- If every verification in the window fails, the loop exhausts its
attempts and reports overall failure, having dragged once per attempt. -/
theorem sliderAttemptLoop_allFail (w : SliderWorld) (maxDrag : ℚ) :
    ∀ (rem k0 : Nat) (trace : List AttemptInfo),
      (∀ k, k0 ≤ k → k < k0 + rem →
        w.successMarkerPresent k = false ∧ w.captchaStillPresent k = true) →
      (sliderAttemptLoop w maxDrag rem k0 trace).outcome = .failedAllAttempts ∧
      (sliderAttemptLoop w maxDrag rem k0 trace).attempts.length =
        trace.length + rem := by
  intro rem
  induction rem with
  | zero => intro k0 trace hf; exact ⟨rfl, rfl⟩
  | succ f ih =>
    intro k0 trace hf
    have hk0 := hf k0 (Nat.le_refl _) (by omega)
    have hcond : (w.successMarkerPresent k0 || !w.captchaStillPresent k0) = false := by
      rw [hk0.1, hk0.2]
      rfl
    rw [sliderAttemptLoop_succ, if_neg (by rw [hcond]; exact Bool.false_ne_true)]
    have := ih (k0 + 1)
      (trace ++ [⟨pyIntTrunc (maxDrag * w.uniformDraw k0), w.stepsDraw k0⟩])
      (fun k hk1 hk2 => hf k (by omega) (by omega))
    refine ⟨this.1, ?_⟩
    rw [this.2]
    simp
    omega

/-- Every recorded attempt satisfies a property of the per-attempt drag
parameters, and at most `rem` further attempts are recorded. -/
theorem sliderAttemptLoop_attempts (w : SliderWorld) (maxDrag : ℚ)
    (P : AttemptInfo → Prop)
    (hP : ∀ k, P ⟨pyIntTrunc (maxDrag * w.uniformDraw k), w.stepsDraw k⟩) :
    ∀ (rem k0 : Nat) (trace : List AttemptInfo), (∀ a ∈ trace, P a) →
      (∀ a ∈ (sliderAttemptLoop w maxDrag rem k0 trace).attempts, P a) ∧
      (sliderAttemptLoop w maxDrag rem k0 trace).attempts.length ≤
        trace.length + rem := by
  intro rem
  induction rem with
  | zero => intro k0 trace ht; exact ⟨ht, by simp [sliderAttemptLoop]⟩
  | succ f ih =>
    intro k0 trace ht
    have ht' : ∀ a ∈ trace ++
        [(⟨pyIntTrunc (maxDrag * w.uniformDraw k0), w.stepsDraw k0⟩ : AttemptInfo)],
        P a := by
      intro a ha
      rcases List.mem_append.mp ha with h | h
      · exact ht a h
      · rw [List.mem_singleton.mp h]
        exact hP k0
    rw [sliderAttemptLoop_succ]
    split
    · refine ⟨ht', ?_⟩
      simp only
      simp
    · have := ih (k0 + 1) _ ht'
      refine ⟨this.1, ?_⟩
      refine le_trans this.2 ?_
      simp
      omega

/-- Truncation of a rational in `[0, 210]` stays in `[0, 210]`. -/
theorem pyIntTrunc_bounds (q : ℚ) (h0 : 0 ≤ q) (hq : q ≤ 210) :
    0 ≤ pyIntTrunc q ∧ pyIntTrunc q ≤ 210 := by
  rw [pyIntTrunc, if_pos h0, ratFloor_eq_floor]
  constructor
  · exact Int.floor_nonneg.mpr h0
  · calc ⌊q⌋ ≤ ⌊(210 : ℚ)⌋ := Int.floor_le_floor hq
      _ = 210 := by norm_num

/-- C2 (amended): slider resolution reports `solved=true` only when the
post-drag verification held — a success marker was present or the
challenge DOM was absent (the marker alone suffices, so the DOM may
still be present); and when all three drag attempts fail verification
it reports `solved=false` after exactly 3 drags, never raising. -/
theorem C2_slider_verification :
    (∀ (w : SliderWorld) (k : Nat),
        (solve_tiktok_puzzle_captcha w).outcome = .solvedAt k →
        1 ≤ k ∧ k ≤ 3 ∧
          (w.successMarkerPresent (k - 1) = true ∨
           w.captchaStillPresent (k - 1) = false)) ∧
    (∀ w : SliderWorld,
        (w.captchaFrameFound || w.puzzleContainerFound) = true →
        (w.captchaFrameFound = true → w.frameAccessible = true) →
        w.sliderFound = true → w.sliderBoxAvailable = true →
        (∀ k, k < 3 → w.successMarkerPresent k = false ∧
          w.captchaStillPresent k = true) →
        (solve_tiktok_puzzle_captcha w).outcome = .failedAllAttempts ∧
        (solve_tiktok_puzzle_captcha w).attempts.length = 3) := by
  constructor
  · intro w k h
    unfold solve_tiktok_puzzle_captcha at h
    split at h
    · simp at h
    · split at h
      · simp at h
      · split at h
        · simp at h
        · split at h
          · simp at h
          · have := sliderAttemptLoop_solvedAt w _ 3 0 [] k h
            exact ⟨by omega, by omega, this.2.2⟩
  · intro w hp1 hp2 hsl hbx hfail
    have hf' : ∀ k, 0 ≤ k → k < 0 + 3 →
        w.successMarkerPresent k = false ∧ w.captchaStillPresent k = true :=
      fun k _ hk => hfail k (by omega)
    unfold solve_tiktok_puzzle_captcha
    split
    · next hcond => simp_all
    · split
      · next hcond => simp_all
      · split
        · next hcond => simp_all
        · split
          · next hcond => simp_all
          · dsimp only
            constructor
            · exact (sliderAttemptLoop_allFail w _ 3 0 [] hf').1
            · have h2 := sliderAttemptLoop_allFail w
                (if w.clientWidth * (4 / 5 : ℚ) ≤ 300 then
                  w.clientWidth * (4 / 5 : ℚ) else 300) 3 0 [] hf'
              simpa using h2.2

/-- A failing world drives the failure branch of the theorem: three drags
and `solved=false`. -/
theorem C2_witness :
    (solve_tiktok_puzzle_captcha lowDrawWorld).outcome = .failedAllAttempts ∧
      (solve_tiktok_puzzle_captcha lowDrawWorld).attempts.length = 3 :=
  C2_slider_verification.2 lowDrawWorld rfl (fun h => by cases h) rfl rfl
    (fun k _ => ⟨rfl, rfl⟩)

/-- C2 counterexample: with a success marker present after the first
drag while the challenge-DOM query still matches, the function returns
`solved=true` although the challenge DOM is still present on the page
at the time of the return. -/
theorem C2_counterexample_marker_with_dom_present :
    solve_tiktok_puzzle_captcha markerWorld = ⟨.solvedAt 1, [⟨150, 25⟩]⟩ ∧
      markerWorld.captchaStillPresent 0 = true := by
  constructor
  · simp only [solve_tiktok_puzzle_captcha, markerWorld, sliderAttemptLoop,
      pyIntTrunc, ratFloor_eq_floor]
    norm_num
  · rfl

/-- C7 (amended): the randomized drag distance of each attempt equals
`int(min(0.8 * clientWidth, 300) * u)` with `u` drawn from [0.4, 0.7],
hence lies in [0, 210] pixels (it can never be guaranteed to lie in
[200, 300]); the interpolation step count is drawn from [20, 30], which
lies within the claimed [15, 30]; and at most 3 attempts are made
before declaring failure. -/
theorem C7_drag_parameters :
    ∀ w : SliderWorld, 0 ≤ w.clientWidth →
      (∀ k, 2 / 5 ≤ w.uniformDraw k ∧ w.uniformDraw k ≤ 7 / 10) →
      (∀ k, 20 ≤ w.stepsDraw k ∧ w.stepsDraw k ≤ 30) →
      (∀ a ∈ (solve_tiktok_puzzle_captcha w).attempts,
          0 ≤ a.distance ∧ a.distance ≤ 210 ∧
          15 ≤ a.steps ∧ a.steps ≤ 30) ∧
      (solve_tiktok_puzzle_captcha w).attempts.length ≤ 3 := by
  intro w hw hu hs
  unfold solve_tiktok_puzzle_captcha
  split
  · simp
  · split
    · simp
    · split
      · simp
      · split
        · simp
        · dsimp only
          set md := (if w.clientWidth * (4 / 5 : ℚ) ≤ 300 then
              w.clientWidth * (4 / 5 : ℚ) else 300) with hmd
          have hmd0 : 0 ≤ md := by
            rw [hmd]
            split
            · exact mul_nonneg hw (by norm_num)
            · norm_num
          have hmd1 : md ≤ 300 := by
            rw [hmd]
            split
            · next h => exact h
            · norm_num
          have hP0 : ∀ k, 0 ≤ pyIntTrunc (md * w.uniformDraw k) ∧
              pyIntTrunc (md * w.uniformDraw k) ≤ 210 ∧
              15 ≤ w.stepsDraw k ∧ w.stepsDraw k ≤ 30 := by
            intro k
            have hu' := hu k
            have hsk := hs k
            have h0 : 0 ≤ md * w.uniformDraw k :=
              mul_nonneg hmd0 (le_trans (by norm_num) hu'.1)
            have h210 : md * w.uniformDraw k ≤ 210 := by
              calc md * w.uniformDraw k ≤ 300 * (7 / 10 : ℚ) :=
                    mul_le_mul hmd1 hu'.2 (le_trans (by norm_num) hu'.1)
                      (by norm_num)
                _ = 210 := by norm_num
            obtain ⟨hb1, hb2⟩ := pyIntTrunc_bounds _ h0 h210
            exact ⟨hb1, hb2, by omega, hsk.2⟩
          have hres := sliderAttemptLoop_attempts w md
            (fun a => 0 ≤ a.distance ∧ a.distance ≤ 210 ∧
              15 ≤ a.steps ∧ a.steps ≤ 30)
            (fun k => hP0 k) 3 0 [] (by simp)
          exact ⟨hres.1, by simpa using hres.2⟩

/-- The low-draw world satisfies the randomness hypotheses of the theorem. -/
theorem C7_witness :
    (∀ a ∈ (solve_tiktok_puzzle_captcha lowDrawWorld).attempts,
        0 ≤ a.distance ∧ a.distance ≤ 210 ∧
        15 ≤ a.steps ∧ a.steps ≤ 30) ∧
      (solve_tiktok_puzzle_captcha lowDrawWorld).attempts.length ≤ 3 :=
  C7_drag_parameters lowDrawWorld (by norm_num [lowDrawWorld])
    (fun k => by constructor <;> norm_num [lowDrawWorld])
    (fun k => by constructor <;> norm_num [lowDrawWorld])

/-- C7 counterexample: with `clientWidth = 1000` and the uniform draw
at the lower end 0.4 of its range, every executed drag attempt uses the
offset `int(min(800, 300) * 0.4) = 120`, which does not lie in the
claimed range [200, 300]. -/
theorem C7_counterexample_offset_below_claimed_range :
    (solve_tiktok_puzzle_captcha lowDrawWorld).attempts =
        [⟨120, 25⟩, ⟨120, 25⟩, ⟨120, 25⟩] ∧
      ¬(200 ≤ (120 : ℤ)) := by
  constructor
  · simp only [solve_tiktok_puzzle_captcha, lowDrawWorld, sliderAttemptLoop,
      pyIntTrunc, ratFloor_eq_floor]
    norm_num
  · decide

/-! ## C3 -/

/-- C3 (amended): `detect_and_solve_captcha` probes the families one at
a time in the source order reCAPTCHA v2, hCaptcha, slider-puzzle, text,
image and the first matching family wins; a page whose only signature
is `<div class="captcha_verify_container">` is classified slider-puzzle
(it matches `div[class*="captcha"]` and no earlier probe); and when no
family matches the result is not-detected. -/
theorem C3_detection_order :
    (∀ page : PageDom,
        (detect_and_solve_captcha page = .recaptchaV2 ↔
          recaptchaV2Probe page = true) ∧
        (detect_and_solve_captcha page = .hcaptcha ↔
          recaptchaV2Probe page = false ∧ hcaptchaProbe page = true) ∧
        (detect_and_solve_captcha page = .sliderPuzzle ↔
          recaptchaV2Probe page = false ∧ hcaptchaProbe page = false ∧
          sliderProbe page = true) ∧
        (detect_and_solve_captcha page = .textCaptcha ↔
          recaptchaV2Probe page = false ∧ hcaptchaProbe page = false ∧
          sliderProbe page = false ∧ textCaptchaProbe page = true) ∧
        (detect_and_solve_captcha page = .imageCaptcha ↔
          recaptchaV2Probe page = false ∧ hcaptchaProbe page = false ∧
          sliderProbe page = false ∧ textCaptchaProbe page = false ∧
          imageCaptchaProbe page = true) ∧
        (detect_and_solve_captcha page = .notDetected ↔
          recaptchaV2Probe page = false ∧ hcaptchaProbe page = false ∧
          sliderProbe page = false ∧ textCaptchaProbe page = false ∧
          imageCaptchaProbe page = false)) ∧
    detect_and_solve_captcha pageSliderOnly = .sliderPuzzle := by
  constructor
  · intro page
    cases h1 : recaptchaV2Probe page <;> cases h2 : hcaptchaProbe page <;>
      cases h3 : sliderProbe page <;> cases h4 : textCaptchaProbe page <;>
        cases h5 : imageCaptchaProbe page <;>
          simp [detect_and_solve_captcha, h1, h2, h3, h4, h5]
  · decide

/-- Scenario C through the theorem: the lone slider container page is
classified slider-puzzle. -/
theorem C3_witness :
    detect_and_solve_captcha pageSliderOnly = .sliderPuzzle :=
  ((C3_detection_order.1 pageSliderOnly).2.2.1).mpr
    ⟨by decide, by decide, by decide⟩

/-- C3 counterexample: a page containing both a reCAPTCHA anchor iframe
and `<div class="captcha_verify_container">` is classified reCAPTCHA
v2, not slider-puzzle — the probing order starts with reCAPTCHA, not
with the slider family. -/
theorem C3_counterexample_recaptcha_probed_first :
    detect_and_solve_captcha pageBothFamilies = .recaptchaV2 ∧
      detect_and_solve_captcha pageBothFamilies ≠ .sliderPuzzle := by
  exact ⟨by decide, by decide⟩

/-! ## C5 -/

/-- Evaluation of a successful summarization when the head message is a
system message. -/
theorem summarize_eq_sys (k : Nat) (m : Msg) (rest : List Msg)
    (tokens : Nat) (s : String) (hlen : k * 2 + 1 < (m :: rest).length)
    (hsys : m.role = Role.system) :
    summarize_conversation k (m :: rest) tokens (some s) =
      ([m] ++ ⟨.assistant, .ofString ("[CONVERSATION SUMMARY: " ++ s ++ "]")⟩ ::
        pyTail (m :: rest) (k * 2),
       tokensOfMessages
        ([m] ++ ⟨.assistant, .ofString ("[CONVERSATION SUMMARY: " ++ s ++ "]")⟩ ::
          pyTail (m :: rest) (k * 2))) := by
  unfold summarize_conversation
  rw [if_neg (by omega)]
  dsimp only [List.head?]
  rw [if_pos hsys]

/-- Evaluation of a successful summarization when the head message is
not a system message. -/
theorem summarize_eq_nosys (k : Nat) (m : Msg) (rest : List Msg)
    (tokens : Nat) (s : String) (hlen : k * 2 + 1 < (m :: rest).length)
    (hsys : ¬m.role = Role.system) :
    summarize_conversation k (m :: rest) tokens (some s) =
      (⟨.assistant, .ofString ("[CONVERSATION SUMMARY: " ++ s ++ "]")⟩ ::
        pyTail (m :: rest) (k * 2),
       tokensOfMessages
        (⟨.assistant, .ofString ("[CONVERSATION SUMMARY: " ++ s ++ "]")⟩ ::
          pyTail (m :: rest) (k * 2))) := by
  unfold summarize_conversation
  rw [if_neg (by omega)]
  dsimp only [List.head?]
  rw [if_neg hsys]
  rfl

/-- The retained tail has exactly `2k` messages. -/
theorem pyTail_length (msgs : List Msg) (k : Nat) (hk : 1 ≤ k)
    (hlen : k * 2 + 1 < msgs.length) :
    (pyTail msgs (k * 2)).length = k * 2 := by
  rw [pyTail, if_neg (by omega)]
  rw [List.length_drop]
  omega

/-- C5: after a successful summarization of a conversation with more
than `2K + 1` messages, the new message count is (1 if a leading system
message existed else 0) + 1 summary message + 2K last-turn messages,
and the running token estimate is recomputed as the `len // 4`
heuristic over the retained messages only. -/
theorem C5_summarize_count_and_tokens :
    ∀ (k : Nat) (msgs : List Msg) (tokens : Nat) (s : String),
      1 ≤ k → k * 2 + 1 < msgs.length →
      (summarize_conversation k msgs tokens (some s)).1.length =
        (if msgs.head?.map Msg.role = some Role.system then 1 else 0) + 1 + 2 * k ∧
      (summarize_conversation k msgs tokens (some s)).2 =
        tokensOfMessages (summarize_conversation k msgs tokens (some s)).1 := by
  intro k msgs tokens s hk hlen
  cases msgs with
  | nil => simp at hlen
  | cons m rest =>
    have hpt := pyTail_length (m :: rest) k hk hlen
    by_cases hsys : m.role = Role.system
    · rw [summarize_eq_sys k m rest tokens s hlen hsys]
      constructor
      · simp only [List.cons_append, List.nil_append, List.length_cons, hpt]
        rw [if_pos (by simp [hsys])]
        omega
      · rfl
    · rw [summarize_eq_nosys k m rest tokens s hlen hsys]
      constructor
      · simp only [List.length_cons, hpt]
        rw [if_neg (by simp [hsys])]
        omega
      · rfl

/-- Scenario B: over-threshold estimate triggers summarization, and a
system message plus 9 turns summarize (with K = 1) to 4 messages. -/
theorem C5_witness :
    should_summarize 60000 = true ∧
      (summarize_conversation 1 scenarioConv 60000 (some "done")).1.length = 4 := by
  constructor
  · decide
  · have h := (C5_summarize_count_and_tokens 1 scenarioConv 60000 "done"
      (by decide) (by decide)).1
    rw [h]
    decide

/-! ## C9 -/

/-- Appending a non-system message preserves the invariant. -/
theorem noLate_append (msgs : List Msg) (r : Role) (c : Content)
    (h : NoLateSystem msgs) (hr : r ≠ Role.system) :
    NoLateSystem (msgs ++ [⟨r, c⟩]) := by
  cases msgs with
  | nil =>
    intro x hx
    simp at hx
  | cons m rest =>
    intro x hx
    simp only [List.cons_append, List.map_cons, List.map_append,
      List.drop_succ_cons, List.drop_zero] at hx
    rcases List.mem_append.mp hx with h1 | h1
    · refine h x ?_
      simpa using h1
    · rw [List.mem_singleton.mp h1]
      simpa using hr

/-- The retained tail of a long conversation avoids the head message. -/
theorem pyTail_roles_subset (m : Msg) (rest : List Msg)
    (hlen : KEEP_LAST_TURNS * 2 + 1 < (m :: rest).length) :
    (pyTail (m :: rest) (KEEP_LAST_TURNS * 2)).map Msg.role ⊆
      rest.map Msg.role := by
  rw [pyTail, if_neg (by norm_num [KEEP_LAST_TURNS])]
  have hn : (m :: rest).length - KEEP_LAST_TURNS * 2 =
      (rest.length - KEEP_LAST_TURNS * 2) + 1 := by
    simp only [List.length_cons] at hlen ⊢
    norm_num [KEEP_LAST_TURNS] at hlen ⊢
    omega
  rw [hn, List.drop_succ_cons]
  exact List.map_subset Msg.role (List.drop_subset _ _)

/-- Summarization preserves the invariant. -/
theorem noLate_summarize (msgs : List Msg) (tokens : Nat)
    (summary : Option String) (h : NoLateSystem msgs) :
    NoLateSystem (summarize_conversation KEEP_LAST_TURNS msgs tokens summary).1 := by
  by_cases hlen : msgs.length ≤ KEEP_LAST_TURNS * 2 + 1
  · unfold summarize_conversation
    rw [if_pos hlen]
    exact h
  · cases summary with
    | none =>
      unfold summarize_conversation
      rw [if_neg hlen]
      exact h
    | some s =>
      cases msgs with
      | nil => simp at hlen
      | cons m rest =>
        have hlen' : KEEP_LAST_TURNS * 2 + 1 < (m :: rest).length := by omega
        have hrest : ∀ x ∈ (pyTail (m :: rest) (KEEP_LAST_TURNS * 2)).map Msg.role,
            x ≠ Role.system := by
          intro x hx
          refine h x ?_
          simp only [List.map_cons, List.drop_succ_cons, List.drop_zero]
          exact pyTail_roles_subset m rest hlen' hx
        by_cases hsys : m.role = Role.system
        · rw [summarize_eq_sys KEEP_LAST_TURNS m rest tokens s hlen' hsys]
          intro x hx
          simp only [List.cons_append, List.nil_append, List.map_cons,
            List.drop_succ_cons, List.drop_zero] at hx
          rcases List.mem_cons.mp hx with rfl | hx2
          · simp
          · exact hrest x hx2
        · rw [summarize_eq_nosys KEEP_LAST_TURNS m rest tokens s hlen' hsys]
          intro x hx
          simp only [List.map_cons, List.drop_succ_cons, List.drop_zero] at hx
          exact hrest x hx
  
/-- Media pruning preserves the invariant. -/
theorem noLate_removeMedia (msgs : List Msg) (h : NoLateSystem msgs) :
    NoLateSystem (remove_media_except_last_turn msgs) := by
  unfold NoLateSystem
  rw [remove_media_roles]
  exact h

/-- Every reachable conversation satisfies the invariant. -/
theorem reachable_noLateSystem (msgs : List Msg) (h : ReachableConv msgs) :
    NoLateSystem msgs := by
  induction h with
  | empty => intro x hx; simp at hx
  | prepare c => intro x hx; simp at hx
  | addUser msgs c _ ih => exact noLate_append msgs .user c ih (by intro hh; cases hh)
  | addAssistant msgs c _ ih =>
    exact noLate_append msgs .assistant c ih (by intro hh; cases hh)
  | summarize msgs tokens summary _ ih => exact noLate_summarize msgs tokens summary ih
  | removeMedia msgs _ ih => exact noLate_removeMedia msgs ih

/-- C9: in every conversation state reachable by the orchestrator's
operations, a message with the system role can only sit at index 0; and
a successful summarization of a long conversation with a leading system
message preserves that head message and keeps the last K turns as a
suffix of the new list. -/
theorem C9_system_message_invariant :
    (∀ msgs : List Msg, ReachableConv msgs →
        ∀ (i : Nat) (h : i < msgs.length),
          (msgs.get ⟨i, h⟩).role = Role.system → i = 0) ∧
    (∀ (msgs : List Msg) (tokens : Nat) (s : String),
        KEEP_LAST_TURNS * 2 + 1 < msgs.length →
        msgs.head?.map Msg.role = some Role.system →
        (summarize_conversation KEEP_LAST_TURNS msgs tokens (some s)).1.head? =
          msgs.head? ∧
        List.IsSuffix (pyTail msgs (KEEP_LAST_TURNS * 2))
          (summarize_conversation KEEP_LAST_TURNS msgs tokens (some s)).1) := by
  constructor
  · intro msgs hr i h hrole
    have hN := reachable_noLateSystem msgs hr
    cases i with
    | zero => rfl
    | succ j =>
      exfalso
      apply hN (msgs.get ⟨j + 1, h⟩).role _ hrole
      cases msgs with
      | nil => simp at h
      | cons m rest =>
        simp only [List.map_cons, List.drop_succ_cons, List.drop_zero]
        have hget : (m :: rest).get ⟨j + 1, h⟩ =
            rest.get ⟨j, by simpa using h⟩ := rfl
        rw [hget]
        exact List.mem_map_of_mem Msg.role (rest.get_mem _ _)
  · intro msgs tokens s hlen hhead
    cases msgs with
    | nil => simp at hlen
    | cons m rest =>
      have hsys : m.role = Role.system := by
        simp only [List.head?, Option.map_some] at hhead
        exact Option.some.inj hhead
      rw [summarize_eq_sys KEEP_LAST_TURNS m rest tokens s hlen hsys]
      constructor
      · rfl
      · exact ⟨[m, ⟨.assistant,
          .ofString ("[CONVERSATION SUMMARY: " ++ s ++ "]")⟩], rfl⟩

/-- The Scenario B conversation through the theorem: the system head is
preserved and the last turn survives as a suffix. -/
theorem C9_witness :
    (summarize_conversation KEEP_LAST_TURNS scenarioConv 60000 (some "done")).1.head? =
      scenarioConv.head? ∧
    List.IsSuffix (pyTail scenarioConv (KEEP_LAST_TURNS * 2))
      (summarize_conversation KEEP_LAST_TURNS scenarioConv 60000 (some "done")).1 :=
  C9_system_message_invariant.2 scenarioConv 60000 "done" (by decide) rfl
